import Mathlib

/-!
Verification of the serket neural-network layer library (repository
ASEM000/Osiris).  The repository's Python sources are documentation and
tutorials; the layer semantics below are shallow embeddings of the layers
the documentation describes (Linear, Conv2D, Sequential), of the
pytreeclass-style tree utilities (masked get/set/apply, summary counts,
freeze/unfreeze) and of the lazy-initialization protocol.  Numeric arrays
are lists of rationals; shapes are lists of naturals.
-/

set_option autoImplicit false

/-- Build the list [f 0, f 1, ..., f (n-1)]. -/
def tab {α : Type} : Nat → (Nat → α) → List α
  | 0, _ => []
  | Nat.succ n, f => f 0 :: tab n (fun i => f (i + 1))

theorem tab_length {α : Type} (n : Nat) (f : Nat → α) : (tab n f).length = n := by
  induction n generalizing f with
  | zero => rfl
  | succ n ih => simp [tab, ih]

theorem tab_getD {α : Type} (n : Nat) (f : Nat → α) (j : Nat) (d : α) (h : j < n) :
    (tab n f).getD j d = f j := by
  induction n generalizing f j with
  | zero => omega
  | succ n ih =>
    cases j with
    | zero => rfl
    | succ j => simpa [tab] using ih (fun i => f (i + 1)) j (by omega)

theorem tab_congr {α : Type} (n : Nat) (f g : Nat → α) (h : ∀ i, i < n → f i = g i) :
    tab n f = tab n g := by
  induction n generalizing f g with
  | zero => rfl
  | succ n ih =>
    simp only [tab]
    refine congrArg₂ (· :: ·) (h 0 (by omega)) ?_
    exact ih _ _ (fun i hi => h (i + 1) (by omega))

theorem tab_map {α β : Type} (n : Nat) (f : Nat → α) (g : α → β) :
    (tab n f).map g = tab n (fun i => g (f i)) := by
  induction n generalizing f with
  | zero => rfl
  | succ n ih => simp [tab, ih]

theorem tab_mem {α : Type} (n : Nat) (f : Nat → α) (a : α) (h : a ∈ tab n f) :
    ∃ i, i < n ∧ a = f i := by
  induction n generalizing f with
  | zero => cases h
  | succ n ih =>
    rcases List.mem_cons.mp h with he | h2
    · exact ⟨0, by omega, he⟩
    · rcases ih (fun i => f (i + 1)) h2 with ⟨i, hi, he⟩
      exact ⟨i + 1, by omega, he⟩

theorem zipWith_tab {α β γ : Type} (op : α → β → γ) (n : Nat) (f : Nat → α) (g : Nat → β) :
    List.zipWith op (tab n f) (tab n g) = tab n (fun i => op (f i) (g i)) := by
  induction n generalizing f g with
  | zero => rfl
  | succ n ih => simp [tab, ih]

/-- Dot product of two numeric vectors. -/
def dot (xs ys : List ℚ) : ℚ := (List.zipWith (fun a b => a * b) xs ys).sum

theorem dot_nil : dot [] [] = 0 := rfl

theorem dot_cons (a b : ℚ) (xs ys : List ℚ) :
    dot (a :: xs) (b :: ys) = a * b + dot xs ys := rfl

theorem dot_tab (n : Nat) (x : List ℚ) (h : Nat → ℚ) (hx : x.length = n) :
    dot x (tab n h) = ∑ i : Fin n, x.getD i 0 * h i := by
  induction n generalizing x h with
  | zero =>
    cases x with
    | nil => simp [dot, tab]
    | cons a xs => simp at hx
  | succ n ih =>
    cases x with
    | nil => simp at hx
    | cons a xs =>
      rw [show tab (n + 1) h = h 0 :: tab n (fun i => h (i + 1)) from rfl, dot_cons,
        Fin.sum_univ_succ]
      simp only [List.getD_cons_zero, Fin.val_zero, Fin.val_succ, List.getD_cons_succ]
      rw [ih xs (fun i => h (i + 1)) (by simpa using hx)]

/-- j-th column of a matrix stored as a list of rows. -/
def column (w : List (List ℚ)) (j : Nat) : List ℚ := w.map (fun row => row.getD j 0)

/-- Vector–matrix product x @ w, where w has the shape [n, m]
(n rows of length m) and the result has length m. -/
def vecMat (x : List ℚ) (w : List (List ℚ)) (m : Nat) : List ℚ :=
  tab m (fun j => dot x (column w j))

/-- Elementwise sum of two vectors. -/
def vecAdd (a b : List ℚ) : List ℚ := List.zipWith (fun p q => p + q) a b

/-- Row i, column j holds f i j; shape [n, m]. -/
def mkMat (n m : Nat) (f : Nat → Nat → ℚ) : List (List ℚ) := tab n (fun i => tab m (f i))

/-- The Linear layer: weight of shape [in_features, out_features], bias of
shape [out_features], plus the static configuration fields shown in the
tree diagram.  Modelled from the spec: the Python class itself is not in
the sources; fields and shapes follow the README tree diagrams and reprs.
A lazily constructed layer (in_features = none) stores no arrays. -/
structure Linear where
  weight : Option (List (List ℚ))
  bias : Option (List ℚ)
  in_features : Option Nat
  out_features : Nat
  weight_init_func : Nat → Nat → ℚ
  bias_init_func : Nat → ℚ

/-- Construct a Linear layer; with in_features = none construction stores
no parameter arrays (lazy initialization). -/
def Linear.new (inF : Option Nat) (out : Nat) (wf : Nat → Nat → ℚ) (bf : Nat → ℚ) : Linear :=
  match inF with
  | none => ⟨none, none, none, out, wf, bf⟩
  | some n => ⟨some (mkMat n out wf), some (tab out bf), some n, out, wf, bf⟩

/-- First-call shape inference: an uninitialized layer materializes its
arrays from the input length; an initialized layer is left untouched. -/
def Linear.infer (l : Linear) (n : Nat) : Linear :=
  if l.in_features.isSome then l
  else { l with
    weight := some (mkMat n l.out_features l.weight_init_func),
    bias := some (tab l.out_features l.bias_init_func),
    in_features := some n }

/-- The forward computation x @ weight + bias of an initialized layer. -/
def Linear.forward (l : Linear) (x : List ℚ) : List ℚ :=
  vecAdd (vecMat x (l.weight.getD []) l.out_features) (l.bias.getD [])

/-- Calling the layer: infer shapes on first call, then run forward; the
second component is the (possibly initialized) layer after the call. -/
def Linear.call (l : Linear) (x : List ℚ) : List ℚ × Linear :=
  ((l.infer x.length).forward x, l.infer x.length)

/-- Mathematical reference semantics of a dense layer: output j is
(sum over i of x i * w i j) + b j. -/
def denseRefList (n m : Nat) (w : Nat → Nat → ℚ) (b : Nat → ℚ) (x : List ℚ) : List ℚ :=
  tab m (fun j => (∑ i : Fin n, x.getD i 0 * w i j) + b j)

theorem column_mkMat (n m : Nat) (wf : Nat → Nat → ℚ) (j : Nat) (hj : j < m) :
    column (mkMat n m wf) j = tab n (fun i => wf i j) := by
  unfold column mkMat
  rw [tab_map]
  exact tab_congr n _ _ (fun i _ => tab_getD m (wf i) j 0 hj)

theorem Linear.forward_new (n m : Nat) (wf : Nat → Nat → ℚ) (bf : Nat → ℚ)
    (x : List ℚ) (hx : x.length = n) :
    (Linear.new (some n) m wf bf).forward x = denseRefList n m wf bf x := by
  unfold Linear.forward Linear.new denseRefList vecMat vecAdd
  simp only [Option.getD_some]
  rw [zipWith_tab]
  exact tab_congr m _ _ (fun j hj => by rw [column_mkMat n m wf j hj, dot_tab n x _ hx])

/-- The Conv2D layer at the shape/configuration level.  Modelled from the
spec: the Python class is not in the sources; the fields and their
before/after-initialization values follow the README lazy-initialization
reprs (all configuration fields print None before the first call, and the
constructor arguments out_features and kernel_size are retained for the
deferred build).  Array parameters are tracked by their shapes. -/
structure Conv2D where
  argsOut : Nat
  argsKernel : Nat
  weight : Option (List Nat)
  bias : Option (List Nat)
  in_features : Option Nat
  out_features : Option Nat
  kernel_size : Option (Nat × Nat)
  strides : Option (Nat × Nat)
  padding : Option ((Nat × Nat) × (Nat × Nat))
  input_dilation : Option (Nat × Nat)
  kernel_dilation : Option (Nat × Nat)
  groups : Option Nat
deriving DecidableEq

/-- Construct a Conv2D layer with out feature maps and a square k x k
kernel; in_features = none defers every shape-dependent field. -/
def Conv2D.new (inF : Option Nat) (out k : Nat) : Conv2D :=
  match inF with
  | none => ⟨out, k, none, none, none, none, none, none, none, none, none, none⟩
  | some c =>
    ⟨out, k, some [out, c, k, k], some [out, 1, 1], some c, some out, some (k, k),
      some (1, 1), some ((k / 2, k / 2), (k / 2, k / 2)), some (1, 1), some (1, 1), some 1⟩

/-- First-call initialization from the input channel count c. -/
def Conv2D.initFor (l : Conv2D) (c : Nat) : Conv2D :=
  if l.in_features.isSome then l
  else { l with
    weight := some [l.argsOut, c, l.argsKernel, l.argsKernel],
    bias := some [l.argsOut, 1, 1],
    in_features := some c,
    out_features := some l.argsOut,
    kernel_size := some (l.argsKernel, l.argsKernel),
    strides := some (1, 1),
    padding := some ((l.argsKernel / 2, l.argsKernel / 2), (l.argsKernel / 2, l.argsKernel / 2)),
    input_dilation := some (1, 1),
    kernel_dilation := some (1, 1),
    groups := some 1 }

/-- Shape-level call: a rank-3 input [c, h, w] triggers initialization on
first use and maps to the output shape [out, h, w] (stride 1, same
padding); any other rank is rejected. -/
def Conv2D.call (l : Conv2D) (s : List Nat) : Option (List Nat × Conv2D) :=
  match s with
  | [c, h, w] =>
    let l2 := l.initFor c
    some ([l2.out_features.getD 0, h, w], l2)
  | _ => none

def Conv2D.isInit (l : Conv2D) : Bool := l.in_features.isSome

/-- The Sequential container: an ordered list of child layers, each a
function on the value type. -/
structure Serket.Sequential (α : Type) where
  layers : List (α → α)

/-- Calling a Sequential folds the input through the children in list
order. -/
def Serket.Sequential.call {α : Type} (s : Serket.Sequential α) (x : α) : α :=
  s.layers.foldl (fun a f => f a) x

/-- Indexing the container returns the child at that position of the list. -/
def Serket.Sequential.getLayer {α : Type} (s : Serket.Sequential α) (i : Nat) : Option (α → α) :=
  s.layers.get? i

/-- Reference semantics written from the spec's words: apply the first
child, then the remaining children in order, so that a list [l1, ..., ln]
maps x to ln (... (l2 (l1 x))). -/
def seqRef {α : Type} : List (α → α) → α → α
  | [], x => x
  | l :: ls, x => seqRef ls (l x)

theorem Serket.Sequential.call_eq_seqRef {α : Type} (ls : List (α → α)) (x : α) :
    Serket.Sequential.call ⟨ls⟩ x = seqRef ls x := by
  induction ls generalizing x with
  | nil => rfl
  | cons l ls ih => simpa [Serket.Sequential.call, seqRef, List.foldl] using ih (l x)

/-- A leaf of the model tree as pytreeclass traverses it: a numeric value
tagged with the field name and the owning layer type (both coded as
naturals).  Modelled from the spec: the traversal library is external; the
README filtering section fixes the observable behavior. -/
structure Leaf where
  name : Nat
  ty : Nat
  value : ℚ
deriving DecidableEq

def dLeaf : Leaf := ⟨0, 0, 0⟩

/-- Mask built by comparing the model against a value predicate
(for example model < 0). -/
def maskByValue (m : List Leaf) (p : ℚ → Bool) : List Bool := m.map (fun lf => p lf.value)

/-- Mask built by comparing the model against a field name. -/
def maskByName (m : List Leaf) (s : Nat) : List Bool := m.map (fun lf => lf.name == s)

/-- Mask built by comparing the model against a layer type. -/
def maskByType (m : List Leaf) (t : Nat) : List Bool := m.map (fun lf => lf.ty == t)

/-- Conjunction of two masks. -/
def maskAnd (a b : List Bool) : List Bool := List.zipWith (fun p q => p && q) a b

/-- model.at[mask].set(v): replace the value of every selected leaf by v. -/
def atSet (m : List Leaf) (mask : List Bool) (v : ℚ) : List Leaf :=
  List.zipWith (fun b lf => if b then { lf with value := v } else lf) mask m

/-- model.at[mask].apply(f): map f over the value of every selected leaf. -/
def atApply (m : List Leaf) (mask : List Bool) (f : ℚ → ℚ) : List Leaf :=
  List.zipWith (fun b lf => if b then { lf with value := f lf.value } else lf) mask m

/-- model.at[mask].get(): the values of the selected leaves, in order. -/
def atGet (m : List Leaf) (mask : List Bool) : List ℚ :=
  (((List.zip mask m).filter (fun p => p.1)).map (fun p => p.2.value))

/-- Per-layer data of the summary table: feature counts and the frozen
flag.  Modelled from the spec: the summary printer is external; the README
summary tables fix the counting rules. -/
structure SLayer where
  inF : Nat
  outF : Nat
  frozen : Bool
deriving DecidableEq

/-- Param # column of the summary for a dense layer. -/
def SLayer.paramCount (s : SLayer) : Nat := s.inF * s.outF + s.outF

/-- Size column in bytes: four bytes per f32 scalar. -/
def SLayer.byteSize (s : SLayer) : Nat := 4 * s.paramCount

def totalCount (ls : List SLayer) : Nat := (ls.map SLayer.paramCount).sum

def dynamicCount (ls : List SLayer) : Nat :=
  ((ls.filter (fun s => !s.frozen)).map SLayer.paramCount).sum

def frozenCount (ls : List SLayer) : Nat :=
  ((ls.filter (fun s => s.frozen)).map SLayer.paramCount).sum

def totalSize (ls : List SLayer) : Nat := (ls.map SLayer.byteSize).sum

def dynamicSize (ls : List SLayer) : Nat :=
  ((ls.filter (fun s => !s.frozen)).map SLayer.byteSize).sum

def frozenSize (ls : List SLayer) : Nat :=
  ((ls.filter (fun s => s.frozen)).map SLayer.byteSize).sum

/-- Number of scalar elements stored by a Linear layer. -/
def Linear.numel (l : Linear) : Nat :=
  ((l.weight.getD []).map List.length).sum + (l.bias.getD []).length

/-- A layer with a frozen flag, for the freeze/unfreeze and gradient-step
semantics.  Modelled from the spec: freeze/unfreeze come from the external
base-class library; the README freezing section fixes their behavior. -/
structure FLayer where
  w : List ℚ
  b : ℚ
  frozen : Bool
deriving DecidableEq

/-- Forward computation of one layer; it does not read the frozen flag. -/
def FLayer.fwd (l : FLayer) (x : List ℚ) : ℚ := dot l.w x + l.b

/-- model.freeze(): mark every parameter-holding leaf frozen. -/
def freezeM (m : List FLayer) : List FLayer := m.map (fun l => { l with frozen := true })

/-- model.unfreeze(): clear every frozen mark. -/
def unfreezeM (m : List FLayer) : List FLayer := m.map (fun l => { l with frozen := false })

def allUnfrozen (m : List FLayer) : Bool := m.all (fun l => !l.frozen)

def allFrozen (m : List FLayer) : Bool := m.all (fun l => l.frozen)

/-- Forward outputs of the whole model. -/
def fwdM (m : List FLayer) (x : List ℚ) : List ℚ := m.map (fun l => l.fwd x)

/-- One optimizer step model - lr * grad: frozen leaves receive no update. -/
def stepM (m g : List FLayer) (lr : ℚ) : List FLayer :=
  List.zipWith
    (fun l gl =>
      if l.frozen then l
      else { l with
        w := List.zipWith (fun a c => a - lr * c) l.w gl.w,
        b := l.b - lr * gl.b })
    m g

/-- The errors the library raises. -/
inductive LayerError where
  | shapeMismatch
  | uninitLazy
deriving DecidableEq

/-- Calling a Linear layer with its shape assertion: an input whose length
does not match a known in_features is rejected, and the layer is returned
unchanged (no partially-updated state). -/
def Linear.callChecked (l : Linear) (x : List ℚ) : Except LayerError (List ℚ) × Linear :=
  match l.in_features with
  | some n =>
    if x.length = n then (Except.ok (l.call x).1, (l.call x).2)
    else (Except.error LayerError.shapeMismatch, l)
  | none => (Except.ok (l.call x).1, (l.call x).2)

/-- Functional whole-structure update model - lr * grad on a Linear layer:
parameter leaves are replaced elementwise, static fields are carried over. -/
def Linear.update (l : Linear) (lr : ℚ) (g : Linear) : Linear :=
  { l with
    weight :=
      match l.weight, g.weight with
      | some w2, some gw => some (List.zipWith (List.zipWith (fun a c => a - lr * c)) w2 gw)
      | w2, _ => w2,
    bias :=
      match l.bias, g.bias with
      | some b2, some gb => some (List.zipWith (fun a c => a - lr * c) b2 gb)
      | b2, _ => b2 }

def seqHasUninit (m : List Conv2D) : Bool := m.any (fun l => !l.isInit)

/-- Modelled from the spec: applying a jax transformation (vmap, grad,
jit, ...) to a model first flattens it; a lazy model that was never called
still holds None leaves and the transformation raises a ValueError, and no
new model is produced.  An initialized model passes through. -/
def vmapModel (m : List Conv2D) : Except LayerError (List Conv2D) :=
  if seqHasUninit m then Except.error LayerError.uninitLazy else Except.ok m

/-- The dry run: thread the input shape through the layers of a
Sequential, initializing each lazy layer on its first call. -/
def seqDryRun : List Conv2D → List Nat → Option (List Nat × List Conv2D)
  | [], s => some (s, [])
  | l :: ls, s =>
    match l.call s with
    | none => none
    | some (s2, l2) =>
      match seqDryRun ls s2 with
      | none => none
      | some (s3, ls2) => some (s3, l2 :: ls2)

theorem Linear.infer_of_isSome (l : Linear) (n : Nat) (h : l.in_features.isSome = true) :
    l.infer n = l := by
  simp [Linear.infer, h]

/-- Claim C1: a layer constructed with an unspecified input shape
(in_features = none) has every parameter and shape-dependent configuration
field absent (none) after construction; the first forward call replaces
exactly those fields with the values inferred from the input shape (a
Conv2D built lazily and called on a c-channel input acquires
in_features = c and a weight of shape [out, c, k, k], coinciding with the
eagerly constructed layer); every subsequent call leaves the configuration
unchanged. -/
theorem claim_C1_lazy_init (out k c h w c2 h2 w2 : Nat) :
    ((Conv2D.new none out k).weight = none ∧ (Conv2D.new none out k).bias = none ∧
      (Conv2D.new none out k).in_features = none ∧
      (Conv2D.new none out k).out_features = none ∧
      (Conv2D.new none out k).kernel_size = none ∧
      (Conv2D.new none out k).strides = none ∧
      (Conv2D.new none out k).padding = none ∧
      (Conv2D.new none out k).input_dilation = none ∧
      (Conv2D.new none out k).kernel_dilation = none ∧
      (Conv2D.new none out k).groups = none) ∧
    Conv2D.call (Conv2D.new none out k) [c, h, w] =
      some ([out, h, w], Conv2D.new (some c) out k) ∧
    Conv2D.call (Conv2D.new (some c) out k) [c2, h2, w2] =
      some ([out, h2, w2], Conv2D.new (some c) out k) := by
  refine ⟨⟨rfl, rfl, rfl, rfl, rfl, rfl, rfl, rfl, rfl, rfl⟩, rfl, rfl⟩

/-- Claim C2: a Linear layer with in_features = n and out_features = m has
a weight of shape [n, m] and a bias of shape [m], and calling it on an
input x of length n returns exactly the affine map x @ weight + bias of
the mathematical reference semantics, with no other effect (the layer
after the call is the layer before the call). -/
theorem claim_C2_linear_forward (n m : Nat) (wf : Nat → Nat → ℚ) (bf : Nat → ℚ)
    (x : List ℚ) (hx : x.length = n) :
    (Linear.new (some n) m wf bf).weight = some (mkMat n m wf) ∧
    (mkMat n m wf).length = n ∧
    (∀ row ∈ mkMat n m wf, row.length = m) ∧
    (Linear.new (some n) m wf bf).bias = some (tab m bf) ∧
    (tab m bf).length = m ∧
    ((Linear.new (some n) m wf bf).call x).1 = denseRefList n m wf bf x ∧
    ((Linear.new (some n) m wf bf).call x).2 = Linear.new (some n) m wf bf := by
  have hs : (Linear.new (some n) m wf bf).in_features.isSome = true := rfl
  have hinf := Linear.infer_of_isSome (Linear.new (some n) m wf bf) x.length hs
  refine ⟨rfl, tab_length n _, ?_, rfl, tab_length m bf, ?_, ?_⟩
  · intro row hr
    rcases tab_mem n _ row hr with ⟨i, hi, he⟩
    rw [he]
    exact tab_length m (wf i)
  · rw [Linear.call, hinf]
    exact Linear.forward_new n m wf bf x hx
  · rw [Linear.call, hinf]

theorem claim_C2_witness :
    ([(3 : ℚ)].length = 1) ∧
    ((Linear.new (some 1) 2 (fun _ _ => (1 : ℚ)) (fun _ => (0 : ℚ))).weight =
      some (mkMat 1 2 (fun _ _ => (1 : ℚ))) ∧
    (mkMat 1 2 (fun _ _ => (1 : ℚ))).length = 1 ∧
    (∀ row ∈ mkMat 1 2 (fun _ _ => (1 : ℚ)), row.length = 2) ∧
    (Linear.new (some 1) 2 (fun _ _ => (1 : ℚ)) (fun _ => (0 : ℚ))).bias =
      some (tab 2 (fun _ => (0 : ℚ))) ∧
    (tab 2 (fun _ => (0 : ℚ))).length = 2 ∧
    ((Linear.new (some 1) 2 (fun _ _ => (1 : ℚ)) (fun _ => (0 : ℚ))).call [(3 : ℚ)]).1 =
      denseRefList 1 2 (fun _ _ => (1 : ℚ)) (fun _ => (0 : ℚ)) [(3 : ℚ)] ∧
    ((Linear.new (some 1) 2 (fun _ _ => (1 : ℚ)) (fun _ => (0 : ℚ))).call [(3 : ℚ)]).2 =
      Linear.new (some 1) 2 (fun _ _ => (1 : ℚ)) (fun _ => (0 : ℚ))) :=
  ⟨rfl, claim_C2_linear_forward 1 2 (fun _ _ => (1 : ℚ)) (fun _ => (0 : ℚ)) [(3 : ℚ)] rfl⟩

/-- Claim C3: a Sequential built from an ordered list of children applies
the children exactly once each in list order — calling it computes
ln (... (l2 (l1 x))), the reference recursion seqRef — and indexing the
container at 0 returns the first child of the list. -/
theorem claim_C3_sequential (α : Type) (ls : List (α → α)) (l : α → α) (x : α) :
    Serket.Sequential.call ⟨ls⟩ x = seqRef ls x ∧
    Serket.Sequential.getLayer ⟨l :: ls⟩ 0 = some l :=
  ⟨Serket.Sequential.call_eq_seqRef ls x, rfl⟩

/-- Claim C4: calling an initialized layer never mutates it (the layer
after the call equals the layer before, and the output is the pure forward
computation); parameters change only by whole-structure replacement
model - lr * grad, and that functional update leaves every static
configuration field (in_features, out_features, the init functions) equal
to the original's. -/
theorem claim_C4_immutable_call (l : Linear) (x : List ℚ) (lr : ℚ) (g : Linear)
    (h : l.in_features.isSome = true) :
    (l.call x).2 = l ∧
    (l.call x).1 = l.forward x ∧
    (l.update lr g).in_features = l.in_features ∧
    (l.update lr g).out_features = l.out_features ∧
    (l.update lr g).weight_init_func = l.weight_init_func ∧
    (l.update lr g).bias_init_func = l.bias_init_func := by
  have hinf := Linear.infer_of_isSome l x.length h
  exact ⟨by rw [Linear.call, hinf], by rw [Linear.call, hinf], rfl, rfl, rfl, rfl⟩

theorem claim_C4_witness :
    ((Linear.new (some 1) 1 (fun _ _ => (1 : ℚ)) (fun _ => (0 : ℚ))).in_features.isSome
      = true) ∧
    (((Linear.new (some 1) 1 (fun _ _ => (1 : ℚ)) (fun _ => (0 : ℚ))).call [(5 : ℚ)]).2 =
      Linear.new (some 1) 1 (fun _ _ => (1 : ℚ)) (fun _ => (0 : ℚ)) ∧
    ((Linear.new (some 1) 1 (fun _ _ => (1 : ℚ)) (fun _ => (0 : ℚ))).call [(5 : ℚ)]).1 =
      (Linear.new (some 1) 1 (fun _ _ => (1 : ℚ)) (fun _ => (0 : ℚ))).forward [(5 : ℚ)] ∧
    ((Linear.new (some 1) 1 (fun _ _ => (1 : ℚ)) (fun _ => (0 : ℚ))).update 1
        (Linear.new (some 1) 1 (fun _ _ => (2 : ℚ)) (fun _ => (3 : ℚ)))).in_features =
      (Linear.new (some 1) 1 (fun _ _ => (1 : ℚ)) (fun _ => (0 : ℚ))).in_features ∧
    ((Linear.new (some 1) 1 (fun _ _ => (1 : ℚ)) (fun _ => (0 : ℚ))).update 1
        (Linear.new (some 1) 1 (fun _ _ => (2 : ℚ)) (fun _ => (3 : ℚ)))).out_features =
      (Linear.new (some 1) 1 (fun _ _ => (1 : ℚ)) (fun _ => (0 : ℚ))).out_features ∧
    ((Linear.new (some 1) 1 (fun _ _ => (1 : ℚ)) (fun _ => (0 : ℚ))).update 1
        (Linear.new (some 1) 1 (fun _ _ => (2 : ℚ)) (fun _ => (3 : ℚ)))).weight_init_func =
      (Linear.new (some 1) 1 (fun _ _ => (1 : ℚ)) (fun _ => (0 : ℚ))).weight_init_func ∧
    ((Linear.new (some 1) 1 (fun _ _ => (1 : ℚ)) (fun _ => (0 : ℚ))).update 1
        (Linear.new (some 1) 1 (fun _ _ => (2 : ℚ)) (fun _ => (3 : ℚ)))).bias_init_func =
      (Linear.new (some 1) 1 (fun _ _ => (1 : ℚ)) (fun _ => (0 : ℚ))).bias_init_func) :=
  ⟨rfl, claim_C4_immutable_call (Linear.new (some 1) 1 (fun _ _ => (1 : ℚ)) (fun _ => (0 : ℚ)))
    [(5 : ℚ)] 1 (Linear.new (some 1) 1 (fun _ _ => (2 : ℚ)) (fun _ => (3 : ℚ))) rfl⟩

theorem zipWith_map_same {α β γ δ : Type} (op : β → γ → δ) (g1 : α → β) (g2 : α → γ)
    (m : List α) : List.zipWith op (m.map g1) (m.map g2) = m.map (fun a => op (g1 a) (g2 a)) := by
  induction m with
  | nil => rfl
  | cons a m ih => simp [ih]

theorem map_getD_of_lt {α β : Type} (g : α → β) (m : List α) (i : Nat) (da : α) (db : β)
    (hi : i < m.length) : (m.map g).getD i db = g (m.getD i da) := by
  induction m generalizing i with
  | nil => simp at hi
  | cons a m ih =>
    cases i with
    | zero => rfl
    | succ i => simpa using ih i (by simpa using hi)

theorem atSet_getD (m : List Leaf) (mask : List Bool) (v : ℚ) (i : Nat)
    (hlen : mask.length = m.length) (hi : i < m.length) :
    (atSet m mask v).getD i dLeaf =
      if mask.getD i false then { m.getD i dLeaf with value := v } else m.getD i dLeaf := by
  induction m generalizing mask i with
  | nil => simp at hi
  | cons lf m ih =>
    cases mask with
    | nil => simp at hlen
    | cons b bs =>
      cases i with
      | zero => rfl
      | succ i =>
        simpa [atSet] using ih bs i (by simpa using hlen) (by simpa using hi)

theorem atApply_getD (m : List Leaf) (mask : List Bool) (f : ℚ → ℚ) (i : Nat)
    (hlen : mask.length = m.length) (hi : i < m.length) :
    (atApply m mask f).getD i dLeaf =
      if mask.getD i false then { m.getD i dLeaf with value := f (m.getD i dLeaf).value }
      else m.getD i dLeaf := by
  induction m generalizing mask i with
  | nil => simp at hi
  | cons lf m ih =>
    cases mask with
    | nil => simp at hlen
    | cons b bs =>
      cases i with
      | zero => rfl
      | succ i =>
        simpa [atApply] using ih bs i (by simpa using hlen) (by simpa using hi)

theorem atSet_length (m : List Leaf) (mask : List Bool) (v : ℚ)
    (hlen : mask.length = m.length) : (atSet m mask v).length = m.length := by
  simp [atSet, hlen]

theorem atGet_maskByValue (m : List Leaf) (p : ℚ → Bool) :
    atGet m (maskByValue m p) = (m.filter (fun lf => p lf.value)).map (fun lf => lf.value) := by
  induction m with
  | nil => rfl
  | cons lf m ih =>
    by_cases hp : p lf.value
    · simp [atGet, maskByValue, List.filter, hp] at ih ⊢
      exact ih
    · simp [atGet, maskByValue, List.filter, hp] at ih ⊢
      exact ih

/-- Claim C5: for a boolean mask over the model's leaves (built by value,
field-name or type comparison, or their conjunction), at[mask].set v
replaces exactly the selected leaves' values by v and leaves every
non-selected leaf and every static field (name, type) unchanged;
at[mask].apply f applies f only to the selected values; at[mask].get
returns exactly the selected values; and a conjunction mask selects a leaf
iff both comparisons hold of it. -/
theorem claim_C5_masking (m : List Leaf) (mask : List Bool) (v : ℚ) (f : ℚ → ℚ)
    (p : ℚ → Bool) (t s : Nat) (i : Nat)
    (hlen : mask.length = m.length) (hi : i < m.length) :
    ((atSet m mask v).getD i dLeaf).value =
      (if mask.getD i false then v else (m.getD i dLeaf).value) ∧
    ((atSet m mask v).getD i dLeaf).name = (m.getD i dLeaf).name ∧
    ((atSet m mask v).getD i dLeaf).ty = (m.getD i dLeaf).ty ∧
    (atSet m mask v).length = m.length ∧
    ((atApply m mask f).getD i dLeaf).value =
      (if mask.getD i false then f (m.getD i dLeaf).value else (m.getD i dLeaf).value) ∧
    ((atApply m mask f).getD i dLeaf).name = (m.getD i dLeaf).name ∧
    ((atApply m mask f).getD i dLeaf).ty = (m.getD i dLeaf).ty ∧
    atGet m (maskByValue m p) =
      (m.filter (fun lf => p lf.value)).map (fun lf => lf.value) ∧
    (maskAnd (maskByType m t) (maskByName m s)).getD i false =
      (((m.getD i dLeaf).ty == t) && ((m.getD i dLeaf).name == s)) := by
  have hset := atSet_getD m mask v i hlen hi
  have happ := atApply_getD m mask f i hlen hi
  refine ⟨?_, ?_, ?_, atSet_length m mask v hlen, ?_, ?_, ?_, atGet_maskByValue m p, ?_⟩
  · rw [hset]; split <;> rfl
  · rw [hset]; split <;> rfl
  · rw [hset]; split <;> rfl
  · rw [happ]; split <;> rfl
  · rw [happ]; split <;> rfl
  · rw [happ]; split <;> rfl
  · rw [maskAnd, maskByType, maskByName, zipWith_map_same]
    exact map_getD_of_lt _ m i dLeaf false hi

theorem claim_C5_witness :
    ([true, false].length = [(⟨1, 10, -2⟩ : Leaf), ⟨2, 20, 3⟩].length) ∧
    (0 < [(⟨1, 10, -2⟩ : Leaf), ⟨2, 20, 3⟩].length) ∧
    (((atSet [(⟨1, 10, -2⟩ : Leaf), ⟨2, 20, 3⟩] [true, false] 0).getD 0 dLeaf).value =
      (if [true, false].getD 0 false then (0 : ℚ)
        else (([(⟨1, 10, -2⟩ : Leaf), ⟨2, 20, 3⟩].getD 0 dLeaf).value)) ∧
    ((atSet [(⟨1, 10, -2⟩ : Leaf), ⟨2, 20, 3⟩] [true, false] 0).getD 0 dLeaf).name =
      ([(⟨1, 10, -2⟩ : Leaf), ⟨2, 20, 3⟩].getD 0 dLeaf).name ∧
    ((atSet [(⟨1, 10, -2⟩ : Leaf), ⟨2, 20, 3⟩] [true, false] 0).getD 0 dLeaf).ty =
      ([(⟨1, 10, -2⟩ : Leaf), ⟨2, 20, 3⟩].getD 0 dLeaf).ty ∧
    (atSet [(⟨1, 10, -2⟩ : Leaf), ⟨2, 20, 3⟩] [true, false] 0).length =
      [(⟨1, 10, -2⟩ : Leaf), ⟨2, 20, 3⟩].length ∧
    ((atApply [(⟨1, 10, -2⟩ : Leaf), ⟨2, 20, 3⟩] [true, false] (fun q => q * q)).getD 0
        dLeaf).value =
      (if [true, false].getD 0 false
        then (fun q => q * q) (([(⟨1, 10, -2⟩ : Leaf), ⟨2, 20, 3⟩].getD 0 dLeaf).value)
        else (([(⟨1, 10, -2⟩ : Leaf), ⟨2, 20, 3⟩].getD 0 dLeaf).value)) ∧
    ((atApply [(⟨1, 10, -2⟩ : Leaf), ⟨2, 20, 3⟩] [true, false] (fun q => q * q)).getD 0
        dLeaf).name = ([(⟨1, 10, -2⟩ : Leaf), ⟨2, 20, 3⟩].getD 0 dLeaf).name ∧
    ((atApply [(⟨1, 10, -2⟩ : Leaf), ⟨2, 20, 3⟩] [true, false] (fun q => q * q)).getD 0
        dLeaf).ty = ([(⟨1, 10, -2⟩ : Leaf), ⟨2, 20, 3⟩].getD 0 dLeaf).ty ∧
    atGet [(⟨1, 10, -2⟩ : Leaf), ⟨2, 20, 3⟩]
        (maskByValue [(⟨1, 10, -2⟩ : Leaf), ⟨2, 20, 3⟩] (fun q => decide (q < 0))) =
      ([(⟨1, 10, -2⟩ : Leaf), ⟨2, 20, 3⟩].filter
        (fun lf => decide (lf.value < 0))).map (fun lf => lf.value) ∧
    (maskAnd (maskByType [(⟨1, 10, -2⟩ : Leaf), ⟨2, 20, 3⟩] 10)
        (maskByName [(⟨1, 10, -2⟩ : Leaf), ⟨2, 20, 3⟩] 1)).getD 0 false =
      ((([(⟨1, 10, -2⟩ : Leaf), ⟨2, 20, 3⟩].getD 0 dLeaf).ty == 10) &&
        (([(⟨1, 10, -2⟩ : Leaf), ⟨2, 20, 3⟩].getD 0 dLeaf).name == 1))) :=
  ⟨rfl, by decide,
    claim_C5_masking [(⟨1, 10, -2⟩ : Leaf), ⟨2, 20, 3⟩] [true, false] 0 (fun q => q * q)
      (fun q => decide (q < 0)) 10 1 0 rfl (by decide)⟩

/-- Claim C6: the only errors the library raises are shape assertions.  A
layer with a known in_features rejects exactly the inputs of mismatched
length, returning the layer unchanged (no retry, no recovery, no
partially-updated state); matching inputs are computed normally; a lazy
layer's first call infers the shape instead of raising. -/
theorem claim_C6_shape_errors (l l0 : Linear) (x1 x2 x0 : List ℚ) (n : Nat)
    (h : l.in_features = some n) (h0 : l0.in_features = none)
    (h1 : x1.length ≠ n) (h2 : x2.length = n) :
    (l.callChecked x1).1 = Except.error LayerError.shapeMismatch ∧
    (l.callChecked x1).2 = l ∧
    (l.callChecked x2).1 = Except.ok (l.forward x2) ∧
    (l.callChecked x2).2 = l ∧
    (l0.callChecked x0).1 = Except.ok ((l0.infer x0.length).forward x0) := by
  have hs : l.in_features.isSome = true := by rw [h]; rfl
  have hinf := Linear.infer_of_isSome l n hs
  refine ⟨?_, ?_, ?_, ?_, ?_⟩
  · rw [Linear.callChecked, h]; simp [h1]
  · rw [Linear.callChecked, h]; simp [h1]
  · rw [Linear.callChecked, h]; simp [h2, Linear.call, hinf]
  · rw [Linear.callChecked, h]; simp [h2, Linear.call, hinf]
  · rw [Linear.callChecked, h0]
    rfl

theorem claim_C6_witness :
    ((Linear.new (some 1) 1 (fun _ _ => (1 : ℚ)) (fun _ => (0 : ℚ))).in_features = some 1) ∧
    ((Linear.new none 1 (fun _ _ => (1 : ℚ)) (fun _ => (0 : ℚ))).in_features = none) ∧
    ([(4 : ℚ), 4].length ≠ 1) ∧ ([(5 : ℚ)].length = 1) ∧
    (((Linear.new (some 1) 1 (fun _ _ => (1 : ℚ)) (fun _ => (0 : ℚ))).callChecked
        [(4 : ℚ), 4]).1 = Except.error LayerError.shapeMismatch ∧
    ((Linear.new (some 1) 1 (fun _ _ => (1 : ℚ)) (fun _ => (0 : ℚ))).callChecked
        [(4 : ℚ), 4]).2 = Linear.new (some 1) 1 (fun _ _ => (1 : ℚ)) (fun _ => (0 : ℚ)) ∧
    ((Linear.new (some 1) 1 (fun _ _ => (1 : ℚ)) (fun _ => (0 : ℚ))).callChecked
        [(5 : ℚ)]).1 =
      Except.ok ((Linear.new (some 1) 1 (fun _ _ => (1 : ℚ)) (fun _ => (0 : ℚ))).forward
        [(5 : ℚ)]) ∧
    ((Linear.new (some 1) 1 (fun _ _ => (1 : ℚ)) (fun _ => (0 : ℚ))).callChecked
        [(5 : ℚ)]).2 = Linear.new (some 1) 1 (fun _ _ => (1 : ℚ)) (fun _ => (0 : ℚ)) ∧
    ((Linear.new none 1 (fun _ _ => (1 : ℚ)) (fun _ => (0 : ℚ))).callChecked [(7 : ℚ)]).1 =
      Except.ok
        (((Linear.new none 1 (fun _ _ => (1 : ℚ)) (fun _ => (0 : ℚ))).infer
          [(7 : ℚ)].length).forward [(7 : ℚ)])) :=
  ⟨rfl, rfl, by decide, rfl,
    claim_C6_shape_errors (Linear.new (some 1) 1 (fun _ _ => (1 : ℚ)) (fun _ => (0 : ℚ)))
      (Linear.new none 1 (fun _ _ => (1 : ℚ)) (fun _ => (0 : ℚ)))
      [(4 : ℚ), 4] [(5 : ℚ)] [(7 : ℚ)] 1 rfl rfl (by decide) rfl⟩

theorem tab_sum_const (n c : Nat) : (tab n (fun _ => c)).sum = n * c := by
  induction n with
  | zero => simp [tab]
  | succ n ih => simp [tab, ih, Nat.succ_mul, Nat.add_comm]

theorem sum_filter_split (f : SLayer → Nat) (ls : List SLayer) :
    (ls.map f).sum =
      ((ls.filter (fun s => !s.frozen)).map f).sum +
        ((ls.filter (fun s => s.frozen)).map f).sum := by
  induction ls with
  | nil => rfl
  | cons s ls ih =>
    cases hf : s.frozen <;> simp [List.filter, hf, ih] <;> omega

/-- Claim C7: the summary's per-layer Param # equals the number of scalar
elements of the layer's arrays (for Linear: in_features * out_features +
out_features), the Total count is the sum of the per-layer counts, the
Total count is the Dynamic count plus the Frozen count, and the byte sizes
decompose the same way. -/
theorem claim_C7_summary_counts (n m : Nat) (wf : Nat → Nat → ℚ) (bf : Nat → ℚ)
    (s : SLayer) (ls : List SLayer) :
    Linear.numel (Linear.new (some n) m wf bf) = n * m + m ∧
    SLayer.paramCount ⟨n, m, s.frozen⟩ = n * m + m ∧
    totalCount (s :: ls) = s.paramCount + totalCount ls ∧
    totalCount ls = dynamicCount ls + frozenCount ls ∧
    totalSize ls = dynamicSize ls + frozenSize ls := by
  refine ⟨?_, rfl, rfl, sum_filter_split SLayer.paramCount ls, sum_filter_split SLayer.byteSize ls⟩
  unfold Linear.numel Linear.new mkMat
  simp only [Option.getD_some]
  rw [tab_map]
  have h1 : tab n (fun i => (tab m (wf i)).length) = tab n (fun _ => m) :=
    tab_congr n _ _ (fun i _ => tab_length m (wf i))
  rw [h1, tab_sum_const, tab_length]

theorem conv_call_init (l : Conv2D) (s s2 : List Nat) (l2 : Conv2D)
    (h : l.call s = some (s2, l2)) : l2.isInit = true := by
  cases s with
  | nil => simp [Conv2D.call] at h
  | cons c rest =>
    cases rest with
    | nil => simp [Conv2D.call] at h
    | cons hh rest2 =>
      cases rest2 with
      | nil => simp [Conv2D.call] at h
      | cons ww rest3 =>
        cases rest3 with
        | cons a rest4 => simp [Conv2D.call] at h
        | nil =>
          simp only [Conv2D.call, Option.some.injEq, Prod.mk.injEq] at h
          rcases h with ⟨_, h2⟩
          rw [← h2]
          unfold Conv2D.initFor Conv2D.isInit
          by_cases hs : l.in_features.isSome
          · simp [hs]
          · simp [hs]

theorem dryRun_all_init (m : List Conv2D) (s s2 : List Nat) (m2 : List Conv2D)
    (h : seqDryRun m s = some (s2, m2)) : seqHasUninit m2 = false := by
  induction m generalizing s s2 m2 with
  | nil =>
    simp only [seqDryRun, Option.some.injEq, Prod.mk.injEq] at h
    rw [← h.2]
    rfl
  | cons l ls ih =>
    simp only [seqDryRun] at h
    cases hc : l.call s with
    | none => simp only [hc] at h; cases h
    | some p =>
      obtain ⟨sa, la⟩ := p
      simp only [hc] at h
      cases hd : seqDryRun ls sa with
      | none => simp only [hd] at h; cases h
      | some q =>
        obtain ⟨sb, lsb⟩ := q
        simp only [hd, Option.some.injEq, Prod.mk.injEq] at h
        rw [← h.2]
        have hi1 : la.isInit = true := conv_call_init l s sa la hc
        have hi2 : seqHasUninit lsb = false := ih sa sb lsb hd
        have hgoal : seqHasUninit (la :: lsb) = ((!la.isInit) || seqHasUninit lsb) := rfl
        rw [hgoal, hi1, hi2]
        rfl

/-- Claim C9: applying a jax transformation to a lazily-constructed model
that was never called raises a ValueError (and produces no model, so the
model is unchanged); after one successful dry-run forward call every layer
is initialized and the same transformation succeeds. -/
theorem claim_C9_lazy_transform (m m2 : List Conv2D) (s s2 : List Nat) (m3 : List Conv2D)
    (h1 : seqHasUninit m = true) (h2 : seqDryRun m2 s = some (s2, m3)) :
    vmapModel m = Except.error LayerError.uninitLazy ∧
    seqHasUninit m3 = false ∧
    vmapModel m3 = Except.ok m3 := by
  have h3 := dryRun_all_init m2 s s2 m3 h2
  refine ⟨?_, h3, ?_⟩
  · rw [vmapModel, h1]; rfl
  · rw [vmapModel, h3]; rfl

theorem claim_C9_witness :
    (seqHasUninit [Conv2D.new none 2 3] = true) ∧
    (seqDryRun [Conv2D.new none 2 3] [3, 4, 4] =
      some ([2, 4, 4], [Conv2D.new (some 3) 2 3])) ∧
    (vmapModel [Conv2D.new none 2 3] = Except.error LayerError.uninitLazy ∧
    seqHasUninit [Conv2D.new (some 3) 2 3] = false ∧
    vmapModel [Conv2D.new (some 3) 2 3] = Except.ok [Conv2D.new (some 3) 2 3]) :=
  ⟨rfl, rfl,
    claim_C9_lazy_transform [Conv2D.new none 2 3] [Conv2D.new none 2 3] [3, 4, 4]
      [2, 4, 4] [Conv2D.new (some 3) 2 3] rfl rfl⟩

/-- Claim C10 fails as stated: freeze and unfreeze are not mutually
inverse on EVERY model.  On a model that already contains a frozen layer,
freeze().unfreeze() returns the fully-unfrozen model, which differs from
the original. -/
theorem claim_C10_counterexample :
    ¬ (unfreezeM (freezeM [(⟨[1], 0, true⟩ : FLayer)]) = [(⟨[1], 0, true⟩ : FLayer)]) := by
  decide

theorem unfreezeM_freezeM (m : List FLayer) (hu : allUnfrozen m = true) :
    unfreezeM (freezeM m) = m := by
  induction m with
  | nil => rfl
  | cons l ls ih =>
    have hall : l.frozen = false ∧ allUnfrozen ls = true := by
      simpa [allUnfrozen] using hu
    have hl : ({ l with frozen := false } : FLayer) = l := by
      cases l with
      | mk w b fr => simp_all
    calc unfreezeM (freezeM (l :: ls))
        = { l with frozen := false } :: unfreezeM (freezeM ls) := rfl
      _ = l :: ls := by rw [hl, ih hall.2]

theorem fwdM_freezeM (m : List FLayer) (x : List ℚ) :
    fwdM (freezeM m) x = fwdM m x := by
  induction m with
  | nil => rfl
  | cons l ls ih =>
    calc fwdM (freezeM (l :: ls)) x
        = FLayer.fwd { l with frozen := true } x :: fwdM (freezeM ls) x := rfl
      _ = FLayer.fwd l x :: fwdM ls x := by rw [ih]; rfl

theorem stepM_frozen (mf : List FLayer) :
    ∀ (g : List FLayer) (lr : ℚ), allFrozen mf = true → g.length = mf.length →
      stepM mf g lr = mf := by
  induction mf with
  | nil => intro g lr _ _; cases g <;> rfl
  | cons l ls ih =>
    intro g lr hf hg
    cases g with
    | nil => simp at hg
    | cons gl gs =>
      have hall : l.frozen = true ∧ allFrozen ls = true := by
        simpa [allFrozen] using hf
      calc stepM (l :: ls) (gl :: gs) lr
          = (if l.frozen then l
              else { l with
                w := List.zipWith (fun a c => a - lr * c) l.w gl.w,
                b := l.b - lr * gl.b }) :: stepM ls gs lr := rfl
        _ = l :: ls := by
            rw [hall.1, if_pos rfl, ih gs lr hall.2 (by simpa using hg)]

/-- Claim C10 (amended): on every model whose parameters are all unfrozen
(as every model is when constructed), model.freeze().unfreeze() equals the
model; a frozen model computes the same forward outputs as the unfrozen
one on every input; and a gradient-update step applied to a fully frozen
model returns the model with all parameter values unchanged. -/
theorem claim_C10_freeze_unfreeze (m mf g : List FLayer) (x : List ℚ) (lr : ℚ)
    (hu : allUnfrozen m = true) (hf : allFrozen mf = true) (hg : g.length = mf.length) :
    unfreezeM (freezeM m) = m ∧
    fwdM (freezeM m) x = fwdM m x ∧
    stepM mf g lr = mf :=
  ⟨unfreezeM_freezeM m hu, fwdM_freezeM m x, stepM_frozen mf g lr hf hg⟩

theorem claim_C10_witness :
    (allUnfrozen [(⟨[1], 0, false⟩ : FLayer)] = true) ∧
    (allFrozen [(⟨[2], 1, true⟩ : FLayer)] = true) ∧
    ([(⟨[3], 5, false⟩ : FLayer)].length = [(⟨[2], 1, true⟩ : FLayer)].length) ∧
    (unfreezeM (freezeM [(⟨[1], 0, false⟩ : FLayer)]) = [(⟨[1], 0, false⟩ : FLayer)] ∧
    fwdM (freezeM [(⟨[1], 0, false⟩ : FLayer)]) [4] = fwdM [(⟨[1], 0, false⟩ : FLayer)] [4] ∧
    stepM [(⟨[2], 1, true⟩ : FLayer)] [(⟨[3], 5, false⟩ : FLayer)] 1 =
      [(⟨[2], 1, true⟩ : FLayer)]) :=
  ⟨rfl, rfl, rfl,
    claim_C10_freeze_unfreeze [(⟨[1], 0, false⟩ : FLayer)] [(⟨[2], 1, true⟩ : FLayer)]
      [(⟨[3], 5, false⟩ : FLayer)] [4] 1 rfl rfl rfl⟩
